import Mathlib

/-!
Verification development for the 9gram SLR(1) parser-table generator.

The Go sources are shallowly embedded: 16-bit symbol values become `Nat`
with explicit bit masks, Go maps become association lists (iteration order
is made explicit as a list parameter wherever a result can depend on it),
fallible operations return `Except String`, and loops whose termination is
not structural take an explicit fuel argument (returning an error or `none`
when fuel runs out, which never happens on the concrete inputs used here).
SHA-256 content hashes are modelled by the hashed content itself: the hash
of equal byte strings is equal, so every equality proved about the content
also holds for the hash.
-/

deriving instance DecidableEq for Except

namespace Gram

/-! ## Symbols (grammar/symbol.go)

A symbol is a 16-bit packed value: bit 15 is the kind (1 = terminal),
bit 14 is the start flag for non-terminals and the EOF flag for terminals,
bits 0-13 are the base number.  The value is modelled as a `Nat`; the base
counters in the symbol table cannot overflow 16 bits because `newSymbol`
rejects any base above `symbolBaseMax` before a counter is bumped. -/

abbrev Symbol := Nat

inductive symbolKind where
  | nonTerminal
  | terminal
deriving DecidableEq, Repr

def symbolNil : Symbol := 0

def symbolEOF : Symbol := 0xc001

def symbolBaseMin : Nat := 1

def symbolBaseMax : Nat := 0xffff >>> 2

/-- `newSymbol` from symbol.go: packs kind, start flag and base. -/
def newSymbol (kind : symbolKind) (isStart : Bool) (base : Nat) : Except String Symbol :=
  if base > symbolBaseMax then
    .error "a base of a symbol exceeds the limit"
  else
    let kindMask : Nat := if kind = .terminal then 0x8000 else 0x0000
    let startMask : Nat := if isStart then 0x4000 else 0x0000
    .ok (kindMask ||| startMask ||| base)

/-- Result quadruple of `Symbol.describe` from symbol.go. -/
structure SymbolInfo where
  kind : symbolKind
  isStart : Bool
  isEOF : Bool
  base : Nat
deriving DecidableEq, Repr

/-- `describe` from symbol.go: bit 15 selects the kind; bit 14 is read as
the start flag when the kind is non-terminal and as the EOF flag when the
kind is terminal; the base is the low 14 bits. -/
def describe (s : Symbol) : SymbolInfo :=
  if 0 < s &&& 0x8000 then
    { kind := .terminal, isStart := false, isEOF := decide (0 < s &&& 0x4000)
      base := s &&& 0x3fff }
  else
    { kind := .nonTerminal, isStart := decide (0 < s &&& 0x4000), isEOF := false
      base := s &&& 0x3fff }

def isNil (s : Symbol) : Bool := (describe s).base == 0

def isStartSym (s : Symbol) : Bool := if isNil s then false else (describe s).isStart

def isEOFSym (s : Symbol) : Bool := if isNil s then false else (describe s).isEOF

def isNonTerminal (s : Symbol) : Bool :=
  if isNil s then false else (describe s).kind = .nonTerminal

def isTerminal (s : Symbol) : Bool := if isNil s then false else !(isNonTerminal s)

/-! ## Symbol table (grammar/symbol.go) -/

structure SymbolTable where
  text2Sym : List (String × Symbol)
  sym2Text : List (Symbol × String)
  nsymBase : Nat
  tsymBase : Nat
deriving DecidableEq, Repr

def lookupText (m : List (String × Symbol)) (text : String) : Option Symbol :=
  (m.find? (fun p => p.1 = text)).map (·.2)

def newSymbolTable : SymbolTable :=
  { text2Sym := [], sym2Text := [], nsymBase := symbolBaseMin, tsymBase := symbolBaseMin }

/-- `registerStartSymbol` from symbol.go: an already-registered text is
returned unchanged; otherwise a fresh non-terminal symbol with the start
flag set is created from the current non-terminal base counter.  There is
no check whether a start symbol already exists. -/
def registerStartSymbol (t : SymbolTable) (text : String) :
    Except String (Symbol × SymbolTable) :=
  match lookupText t.text2Sym text with
  | some sym => .ok (sym, t)
  | none =>
    match newSymbol .nonTerminal true t.nsymBase with
    | .error e => .error e
    | .ok sym =>
      .ok (sym, { t with
        nsymBase := t.nsymBase + 1
        text2Sym := t.text2Sym ++ [(text, sym)]
        sym2Text := t.sym2Text ++ [(sym, text)] })

/-- `registerNonTerminalSymbol` from symbol.go. -/
def registerNonTerminalSymbol (t : SymbolTable) (text : String) :
    Except String (Symbol × SymbolTable) :=
  match lookupText t.text2Sym text with
  | some sym => .ok (sym, t)
  | none =>
    match newSymbol .nonTerminal false t.nsymBase with
    | .error e => .error e
    | .ok sym =>
      .ok (sym, { t with
        nsymBase := t.nsymBase + 1
        text2Sym := t.text2Sym ++ [(text, sym)]
        sym2Text := t.sym2Text ++ [(sym, text)] })

/-- `registerTerminalSymbol` from symbol.go: an already-registered text is
returned unchanged whatever its kind; otherwise a fresh terminal symbol is
created from the current terminal base counter (which starts at
`symbolBaseMin` = 1, just like the non-terminal counter). -/
def registerTerminalSymbol (t : SymbolTable) (text : String) :
    Except String (Symbol × SymbolTable) :=
  match lookupText t.text2Sym text with
  | some sym => .ok (sym, t)
  | none =>
    match newSymbol .terminal false t.tsymBase with
    | .error e => .error e
    | .ok sym =>
      .ok (sym, { t with
        tsymBase := t.tsymBase + 1
        text2Sym := t.text2Sym ++ [(text, sym)]
        sym2Text := t.sym2Text ++ [(sym, text)] })

/-- A registration request against the symbol table, used to quantify over
arbitrary sequences of registrations. -/
inductive RegOp where
  | start (text : String)
  | nonTerm (text : String)
  | term (text : String)
deriving DecidableEq, Repr

def applyRegOp (t : SymbolTable) (op : RegOp) : SymbolTable :=
  match op with
  | .start text =>
    match registerStartSymbol t text with
    | .ok (_, t') => t'
    | .error _ => t
  | .nonTerm text =>
    match registerNonTerminalSymbol t text with
    | .ok (_, t') => t'
    | .error _ => t
  | .term text =>
    match registerTerminalSymbol t text with
    | .ok (_, t') => t'
    | .error _ => t

def runRegOps (ops : List RegOp) : SymbolTable :=
  ops.foldl applyRegOp newSymbolTable

/-! ## Productions and the production set (grammar/production.go)

A production identity is the SHA-256 of the LHS and RHS symbol bytes; it is
modelled by the pair `(lhs, rhs)` itself (hashing equal content gives equal
hashes, and the generator never relies on anything else about the hash). -/

abbrev ProdId := Symbol × List Symbol

structure Production where
  lhs : Symbol
  rhs : List Symbol
  num : Nat
deriving DecidableEq, Repr

def prodId (p : Production) : ProdId := (p.lhs, p.rhs)

def ProductionNumStart : Nat := 1

/-- 0 is avoided as a production number: in the ACTION table 0 means an
empty entry. -/
def productionNumMin : Nat := 2

structure productionSet where
  prods : List Production
  num : Nat
deriving DecidableEq, Repr

def newProductionSet : productionSet := { prods := [], num := productionNumMin }

def psContains (ps : productionSet) (lhs : Symbol) (rhs : List Symbol) : Bool :=
  ps.prods.any (fun p => p.lhs == lhs && p.rhs == rhs)

/-- `append` from production.go: a production whose identity is already
present is dropped without consuming a number; otherwise the production
receives number 1 when its LHS carries the start flag and the next
sequential number (starting at 2) when it does not. -/
def psAppend (ps : productionSet) (lhs : Symbol) (rhs : List Symbol) :
    productionSet × Bool :=
  if psContains ps lhs rhs then (ps, false)
  else if isStartSym lhs then
    ({ ps with prods := ps.prods ++ [{ lhs := lhs, rhs := rhs, num := ProductionNumStart }] },
      true)
  else
    ({ prods := ps.prods ++ [{ lhs := lhs, rhs := rhs, num := ps.num }], num := ps.num + 1 },
      true)

def runAppends (l : List (Symbol × List Symbol)) : productionSet :=
  l.foldl (fun ps p => (psAppend ps p.1 p.2).1) newProductionSet

/-- `findByLHS` from production.go (values in insertion order). -/
def findByLHS (prods : List Production) (lhs : Symbol) : List Production :=
  if isNil lhs then [] else prods.filter (fun p => p.lhs == lhs)

/-- `findByID` from production.go. -/
def findByID (prods : List Production) (id : ProdId) : Option Production :=
  prods.find? (fun p => p.lhs == id.1 && p.rhs == id.2)

/-! ## FIRST sets (grammar/first.go)

The per-symbol FIRST map is an association list in production-LHS order;
`genFirst` receives the productions as a list, standing for one iteration
order of the Go map `productionSet.getAll()`. -/

/-- Symbol sets are Go maps; they are modelled as duplicate-free lists in
insertion order (one realizable iteration order of the map). -/
def addSymList (l : List Symbol) (s : Symbol) : List Symbol :=
  if l.contains s then l else l ++ [s]

structure FirstEntry where
  symbols : List Symbol
  empty : Bool
deriving DecidableEq, Repr

def newFirstEntry : FirstEntry := { symbols := [], empty := false }

/-- `FirstEntry.add`: the changed flag reports whether the symbol was new
(in the source: whether the map grew). -/
def FirstEntry.add (e : FirstEntry) (sym : Symbol) : FirstEntry × Bool :=
  if e.symbols.contains sym then (e, false)
  else ({ e with symbols := e.symbols ++ [sym] }, true)

/-- `FirstEntry.addEmpty`: the changed flag reports whether the nullable
flag flipped. -/
def FirstEntry.addEmpty (e : FirstEntry) : FirstEntry × Bool :=
  if e.empty then (e, false) else ({ e with empty := true }, true)

/-- `FirstEntry.mergeExceptEmpty`: adds all of the target's symbols; the
changed flag reports whether any was new. -/
def FirstEntry.mergeExceptEmpty (e target : FirstEntry) : FirstEntry × Bool :=
  target.symbols.foldl
    (fun (acc : FirstEntry × Bool) s =>
      let r := acc.1.add s
      (r.1, acc.2 || r.2))
    (e, false)

abbrev FirstMap := List (Symbol × FirstEntry)

def lookupSym {α : Type} (m : List (Symbol × α)) (s : Symbol) : Option α :=
  (m.find? (fun p => p.1 == s)).map (·.2)

def updateSym {α : Type} (m : List (Symbol × α)) (s : Symbol) (v : α) :
    List (Symbol × α) :=
  m.map (fun p => if p.1 == s then (s, v) else p)

/-- `newFirst` from first.go: one fresh entry per production LHS. -/
def newFirst (prods : List Production) : FirstMap :=
  prods.foldl
    (fun m p => if (lookupSym m p.lhs).isSome then m else m ++ [(p.lhs, newFirstEntry)]) []

/-- The RHS walk of `genProdFirstEntry` from first.go.  On the path that
continues past a nullable non-terminal the changed flag `r.2` of the merge
is dropped, exactly as in the source (`changed := acc.mergeExceptEmpty(e)`
is shadowed on every loop iteration). -/
def genProdFirstEntryAux (F : FirstMap) : FirstEntry → List Symbol →
    Except String (FirstEntry × Bool)
  | acc, [] => .ok acc.addEmpty
  | acc, sym :: rest =>
    if isTerminal sym then .ok (acc.add sym)
    else
      match lookupSym F sym with
      | none => .error "FIRST set was not found"
      | some e =>
        let r := acc.mergeExceptEmpty e
        if !e.empty then .ok r
        else genProdFirstEntryAux F r.1 rest

/-- `genProdFirstEntry` from first.go.  The source mutates the accumulator
entry in place; because the empty flag is only written after the walk and a
symbol merged from the entry itself is already contained in it, reading the
LHS entry through the unmodified map is equivalent. -/
def genProdFirstEntry (F : FirstMap) (acc : FirstEntry) (prod : Production) :
    Except String (FirstEntry × Bool) :=
  if prod.rhs.isEmpty then .ok acc.addEmpty
  else genProdFirstEntryAux F acc prod.rhs

/-- One pass of the outer loop of `genFirst` over all productions. -/
def firstPass : List Production → FirstMap → Bool → Except String (FirstMap × Bool)
  | [], F, more => .ok (F, more)
  | p :: rest, F, more =>
    match lookupSym F p.lhs with
    | none => .error "FIRST entry missing for LHS"
    | some e =>
      match genProdFirstEntry F e p with
      | .error msg => .error msg
      | .ok (e', ch) => firstPass rest (updateSym F p.lhs e') (more || ch)

def genFirstAux (prods : List Production) : Nat → FirstMap →
    Except String (Option FirstMap)
  | 0, _ => .ok none
  | fuel + 1, F =>
    match firstPass prods F false with
    | .error msg => .error msg
    | .ok (F', true) => genFirstAux prods fuel F'
    | .ok (F', false) => .ok (some F')

/-- `genFirst` from first.go: iterate passes until one reports no change
(`none` when the fuel is exhausted first). -/
def genFirst (prods : List Production) (fuel : Nat) : Except String (Option FirstMap) :=
  genFirstAux prods fuel (newFirst prods)

/-- The suffix walk of `First.Get` from first.go. -/
def firstGetAux (F : FirstMap) : FirstEntry → List Symbol → Option FirstEntry
  | entry, [] => some entry.addEmpty.1
  | entry, sym :: rest =>
    if isTerminal sym then some (entry.add sym).1
    else
      match lookupSym F sym with
      | none => none
      | some e =>
        let entry' := (entry.mergeExceptEmpty e).1
        if !e.empty then some entry'
        else firstGetAux F entry' rest

/-- `First.Get` from first.go: the FIRST set of the RHS suffix of `prod`
starting at position `head` (`none` models the error return). -/
def firstGet (F : FirstMap) (prod : Production) (head : Nat) : Option FirstEntry :=
  if prod.rhs.length ≤ head then some { symbols := ∅, empty := true }
  else firstGetAux F newFirstEntry (prod.rhs.drop head)

/-! ## FOLLOW sets (unnamed/part_002)

This is the recursion-guard implementation: `genFollowEntry` caches
computed entries, and an entry already on the call stack is answered with a
fresh empty entry.  The Go `merge(fst, flw)` is always called with exactly
one non-nil argument, so it is split in two. -/

structure FollowEntry where
  symbols : List Symbol
  eof : Bool
deriving DecidableEq, Repr

def newFollowEntry : FollowEntry := { symbols := [], eof := false }

def FollowEntry.mergeFirst (e : FollowEntry) (fst : FirstEntry) : FollowEntry :=
  { e with symbols := fst.symbols.foldl addSymList e.symbols }

def FollowEntry.mergeFollow (e flw : FollowEntry) : FollowEntry :=
  { symbols := flw.symbols.foldl addSymList e.symbols, eof := e.eof || flw.eof }

abbrev FollowMap := List (Symbol × FollowEntry)

def putFollow (m : FollowMap) (sym : Symbol) (e : FollowEntry) : FollowMap :=
  if (lookupSym m sym).isSome then updateSym m sym e else m ++ [(sym, e)]

structure followCC where
  follow : FollowMap
  stack : List Symbol
deriving DecidableEq

/-- The three nested loops of `genFollowEntry` from unnamed/part_002 as
one defunctionalized recursion (a mutual definition would not reduce inside
the kernel): `entry` is the function entry point, `prodsLoop` the outer
loop over all productions, `rhsLoop` the loop over the indexed RHS
occurrences of the symbol. -/
inductive FollowTask where
  | entry (sym : Symbol)
  | prodsLoop (sym : Symbol) (entry : FollowEntry) (rest : List Production)
  | rhsLoop (sym : Symbol) (p : Production) (entry : FollowEntry) (i : Nat)
      (rest : List Symbol)

/-- `genFollowEntry` from unnamed/part_002, including the two recursion
guards: a cached entry is returned as-is, and a symbol already on the stack
is answered with a fresh empty entry (which is NOT cached). -/
def genFollowGo (prods : List Production) (F : FirstMap) :
    Nat → followCC → FollowTask → Except String (FollowEntry × followCC)
  | 0, _, _ => .error "fuel exhausted"
  | fuel + 1, cc, task =>
    match task with
    | .entry sym =>
      if isNil sym then .error "symbol is nil"
      else
        match lookupSym cc.follow sym with
        | some flw => .ok (flw, cc)
        | none =>
          if cc.stack.contains sym then .ok (newFollowEntry, cc)
          else
            let entry0 : FollowEntry :=
              if isStartSym sym then { symbols := ∅, eof := true } else newFollowEntry
            match genFollowGo prods F fuel { cc with stack := cc.stack ++ [sym] }
                (.prodsLoop sym entry0 prods) with
            | .error msg => .error msg
            | .ok (entry, cc') =>
              .ok (entry, { follow := putFollow cc'.follow sym entry, stack := cc.stack })
    | .prodsLoop _ entry [] => .ok (entry, cc)
    | .prodsLoop sym entry (p :: rest) =>
      match genFollowGo prods F fuel cc (.rhsLoop sym p entry 0 p.rhs) with
      | .error msg => .error msg
      | .ok (entry', cc') => genFollowGo prods F fuel cc' (.prodsLoop sym entry' rest)
    | .rhsLoop _ _ entry _ [] => .ok (entry, cc)
    | .rhsLoop sym p entry i (rhsSym :: rest) =>
      if rhsSym ≠ sym then genFollowGo prods F fuel cc (.rhsLoop sym p entry (i + 1) rest)
      else
        if i + 1 < p.rhs.length then
          match firstGet F p (i + 1) with
          | none => .error "failed to get a FIRST set"
          | some fst =>
            let entry' := entry.mergeFirst fst
            if !fst.empty then
              genFollowGo prods F fuel cc (.rhsLoop sym p entry' (i + 1) rest)
            else
              match genFollowGo prods F fuel cc (.entry p.lhs) with
              | .error msg => .error msg
              | .ok (flw, cc') =>
                genFollowGo prods F fuel cc'
                  (.rhsLoop sym p (entry'.mergeFollow flw) (i + 1) rest)
        else
          match genFollowGo prods F fuel cc (.entry p.lhs) with
          | .error msg => .error msg
          | .ok (flw, cc') =>
            genFollowGo prods F fuel cc'
              (.rhsLoop sym p (entry.mergeFollow flw) (i + 1) rest)

def genFollowEntry (prods : List Production) (F : FirstMap) (fuel : Nat)
    (cc : followCC) (sym : Symbol) : Except String (FollowEntry × followCC) :=
  genFollowGo prods F fuel cc (.entry sym)

/-- `genFollow` from unnamed/part_002: builds the FOLLOW entry of every
production LHS, in list order. -/
def genFollow (prods : List Production) (F : FirstMap) (fuel : Nat) :
    Except String FollowMap := do
  let cc ← prods.foldlM
    (fun cc p => do
      let r ← genFollowEntry prods F fuel cc p.lhs
      pure r.2)
    ({ follow := [], stack := [] } : followCC)
  pure cc.follow

/-! ## LR(0) items, kernels and the automaton (unnamed/part_006)

An LR(0) item identity is the SHA-256 of the production identity and the
dot; it is modelled by the pair itself.  The source sorts kernel items by
the first four little-endian bytes of their SHA-256 identity; the model
sorts by a fixed linear order on the modelled identities, which agrees with
the source whenever the four-byte sort keys of distinct items are distinct
(the collision-freeness that SHA-256 provides in practice). -/

abbrev ItemId := ProdId × Nat

structure LR0Item where
  prod : ProdId
  dot : Nat
  dottedSymbol : Symbol
  initial : Bool
  reducible : Bool
  kernel : Bool
deriving DecidableEq, Repr

def itemId (it : LR0Item) : ItemId := (it.prod, it.dot)

/-- `newLR0Item` from unnamed/part_006 (a `Nat` dot cannot be negative). -/
def newLR0Item (prod : Production) (dot : Nat) : Except String LR0Item :=
  if dot > prod.rhs.length then .error "dot must be between 0 and rhsLen"
  else
    .ok { prod := prodId prod
          dot := dot
          dottedSymbol := (prod.rhs.drop dot).headD symbolNil
          initial := isStartSym prod.lhs && dot == 0
          reducible := dot == prod.rhs.length
          kernel := (isStartSym prod.lhs && dot == 0) || dot > 0 }

/-- Strict lexicographic comparison of symbol lists. -/
def symListLt : List Symbol → List Symbol → Bool
  | [], [] => false
  | [], _ :: _ => true
  | _ :: _, [] => false
  | x :: xs, y :: ys => x < y || (x == y && symListLt xs ys)

/-- A fixed linear order on modelled item identities, standing for the
numeric order of the four-byte sort keys of the SHA-256 identities. -/
def itemIdLe (a b : ItemId) : Bool :=
  a.1.1 < b.1.1 ||
    (a.1.1 == b.1.1 &&
      (symListLt a.1.2 b.1.2 || (a.1.2 == b.1.2 && a.2 ≤ b.2)))

abbrev KernelID := List ItemId

structure Kernel where
  ID : KernelID
  Items : List LR0Item
deriving DecidableEq, Repr

/-- The id-keyed dedup map of `newKernel` (last write wins, keys in first
occurrence order, which models one iteration order of the Go map). -/
def insertItem (m : List LR0Item) (it : LR0Item) : List LR0Item :=
  if m.any (fun x => itemId x == itemId it) then
    m.map (fun x => if itemId x == itemId it then it else x)
  else m ++ [it]

def dedupById (l : List LR0Item) : List LR0Item := l.foldl insertItem []

/-- `newKernel` from unnamed/part_006: reject empty input or a non-kernel
item, drop duplicate identities, sort by the identity sort key, and take
the concatenated sorted identities as the kernel identity (standing for
their SHA-256). -/
def newKernel (items : List LR0Item) : Except String Kernel :=
  if items.isEmpty then .error "a kernel item is missing"
  else if items.any (fun it => !it.kernel) then .error "not a kernel item"
  else
    let sorted := (dedupById items).insertionSort (fun a b => itemIdLe (itemId a) (itemId b))
    .ok { ID := sorted.map itemId, Items := sorted }

def closureStep (prods : List Production)
    (acc : List LR0Item × List ItemId × List LR0Item) (item : LR0Item) :
    Except String (List LR0Item × List ItemId × List LR0Item) :=
  if isTerminal item.dottedSymbol then .ok acc
  else
    (findByLHS prods item.dottedSymbol).foldlM
      (fun (acc : List LR0Item × List ItemId × List LR0Item) p => do
        let j ← newLR0Item p 0
        if acc.2.1.contains (itemId j) then pure acc
        else pure (acc.1 ++ [j], acc.2.1 ++ [itemId j], acc.2.2 ++ [j]))
      acc

def genClosureAux (prods : List Production) :
    Nat → List LR0Item × List ItemId × List LR0Item → Except String (List LR0Item)
  | 0, _ => .error "fuel exhausted"
  | fuel + 1, (items, known, unchecked) =>
    if unchecked.isEmpty then .ok items
    else do
      let acc ← unchecked.foldlM (closureStep prods) (items, known, [])
      genClosureAux prods fuel (acc.1, acc.2.1, acc.2.2)

/-- `genClosure` from unnamed/part_006: worklist closure over dot-0 items
of productions of the dotted non-terminal.  As in the source the initial
kernel items are not entered into the known-identity set. -/
def genClosure (kernel : Kernel) (prods : List Production) (fuel : Nat) :
    Except String (List LR0Item) :=
  genClosureAux prods fuel (kernel.Items, [], kernel.Items)

def appendKernelItem (m : List (Symbol × List LR0Item)) (sym : Symbol)
    (it : LR0Item) : List (Symbol × List LR0Item) :=
  if (lookupSym m sym).isSome then
    m.map (fun p => if p.1 == sym then (p.1, p.2 ++ [it]) else p)
  else m ++ [(sym, [it])]

/-- `genNeighbourKernels` from unnamed/part_006: group the dot-advanced
items by dotted symbol, sort the symbols numerically, and build one kernel
per symbol. -/
def genNeighbourKernels (items : List LR0Item) (prods : List Production) :
    Except String (List (Symbol × Kernel)) := do
  let m ← items.foldlM
    (fun (m : List (Symbol × List LR0Item)) item => do
      if isNil item.dottedSymbol then pure m
      else
        match findByID prods item.prod with
        | none => throw "production was not found"
        | some prod => do
          let kItem ← newLR0Item prod (item.dot + 1)
          pure (appendKernelItem m item.dottedSymbol kItem))
    []
  let nextSymbols := (m.map (·.1)).insertionSort (· ≤ ·)
  nextSymbols.foldlM
    (fun acc sym => do
      let k ← newKernel ((lookupSym m sym).getD [])
      pure (acc ++ [(sym, k)]))
    []

structure LR0State where
  kernel : Kernel
  Num : Nat
  Next : List (Symbol × KernelID)
  Reducible : List ProdId
deriving DecidableEq, Repr

/-- `genStateAndNeighbourKernels` from unnamed/part_006. -/
def genStateAndNeighbourKernels (kernel : Kernel) (prods : List Production)
    (fuel : Nat) : Except String (LR0State × List Kernel) := do
  let items ← genClosure kernel prods fuel
  let neighbours ← genNeighbourKernels items prods
  let next := neighbours.map (fun p => (p.1, p.2.ID))
  let kernels := neighbours.map (·.2)
  let reducible := items.foldl
    (fun acc it =>
      if it.reducible && !(acc.contains it.prod) then acc ++ [it.prod] else acc)
    []
  pure ({ kernel := kernel, Num := 0, Next := next, Reducible := reducible }, kernels)

structure LR0Automaton where
  initialState : KernelID
  states : List (KernelID × LR0State)
deriving DecidableEq, Repr

def genLR0AutomatonAux (prods : List Production) :
    Nat → Nat → List KernelID → List Kernel → List (KernelID × LR0State) →
    Except String (List (KernelID × LR0State))
  | 0, _, _, _, _ => .error "fuel exhausted"
  | fuel + 1, cur, known, unchecked, states =>
    if unchecked.isEmpty then .ok states
    else do
      let acc ← unchecked.foldlM
        (fun (acc : Nat × List KernelID × List Kernel × List (KernelID × LR0State)) k => do
          let r ← genStateAndNeighbourKernels k prods fuel
          let state := { r.1 with Num := acc.1 }
          let states' := acc.2.2.2 ++ [(k.ID, state)]
          let kn := r.2.foldl
            (fun (kn : List KernelID × List Kernel) nk =>
              if kn.1.contains nk.ID then kn else (kn.1 ++ [nk.ID], kn.2 ++ [nk]))
            (acc.2.1, acc.2.2.1)
          pure (acc.1 + 1, kn.1, kn.2, states'))
        (cur, known, [], states)
      genLR0AutomatonAux prods fuel acc.1 acc.2.1 acc.2.2.1 acc.2.2.2

/-- `genLR0Automaton` from unnamed/part_006: worklist construction seeded
with the dot-0 item of the first production of the start symbol; state
numbers are assigned in dequeue order starting at 0. -/
def genLR0Automaton (prods : List Production) (startSym : Symbol) (fuel : Nat) :
    Except String LR0Automaton := do
  if !(isStartSym startSym) then throw "symbold passed is not start symbol"
  else
    match findByLHS prods startSym with
    | [] => throw "no production for the start symbol"
    | p0 :: _ => do
      let initialItem ← newLR0Item p0 0
      let k ← newKernel [initialItem]
      let states ← genLR0AutomatonAux prods fuel 0 [k.ID] [k] []
      pure { initialState := k.ID, states := states }

/-! ## SLR parsing table (grammar/slr.go) -/

inductive ActionType where
  | shift
  | reduce
deriving DecidableEq, Repr

structure ActionEntry where
  symbol : Symbol
  actionType : ActionType
  state : Nat
  production : Nat
deriving DecidableEq, Repr

structure GoToEntry where
  symbol : Symbol
  state : Nat
deriving DecidableEq, Repr

structure ParsingTable where
  Action : List (List ActionEntry)
  GoTo : List (List GoToEntry)
  InitialState : Nat
deriving DecidableEq, Repr

/-- `ParsingTable.shift` from slr.go: scanning the row, the first entry for
the same symbol decides the outcome; an existing reduce is a shift/reduce
conflict, any other existing entry is a duplicate registration. -/
def ParsingTable.shift (t : ParsingTable) (state : Nat) (sym : Symbol)
    (nextState : Nat) : Except String ParsingTable :=
  let row := t.Action.getD state []
  match row.find? (fun e => e.symbol == sym) with
  | some e =>
    if e.actionType = .reduce then .error "shift/reduce conflict"
    else .error "an entry of a parsing table is already registerd"
  | none =>
    .ok { t with Action :=
      t.Action.set state (row ++ [{ symbol := sym, actionType := .shift
                                    state := nextState, production := 0 }]) }

/-- `ParsingTable.reduce` from slr.go: an existing reduce entry for the
same symbol is reported as a reduce/reduce conflict without comparing the
production numbers; an existing shift is a shift/reduce conflict. -/
def ParsingTable.reduce (t : ParsingTable) (state : Nat) (sym : Symbol)
    (prod : Nat) : Except String ParsingTable :=
  let row := t.Action.getD state []
  match row.find? (fun e => e.symbol == sym) with
  | some e =>
    if e.actionType = .reduce then .error "reduce/reduce conflict"
    else .error "shift/reduce conflict"
  | none =>
    .ok { t with Action :=
      t.Action.set state (row ++ [{ symbol := sym, actionType := .reduce
                                    state := 0, production := prod }]) }

/-- `ParsingTable.goTo` from slr.go (never fails). -/
def ParsingTable.goTo (t : ParsingTable) (state : Nat) (sym : Symbol)
    (nextState : Nat) : ParsingTable :=
  let row := t.GoTo.getD state []
  { t with GoTo := t.GoTo.set state (row ++ [{ symbol := sym, state := nextState }]) }

def lookupKernel (states : List (KernelID × LR0State)) (id : KernelID) :
    Option LR0State :=
  (states.find? (fun p => p.1 == id)).map (·.2)

/-- `genSLRParsingTable` from slr.go.  The source iterates the Go state map
and the per-state maps in arbitrary order; the model iterates states in
discovery order, transitions and reducible productions in insertion order,
and FOLLOW symbols in ascending order — one realizable order. -/
def genSLRParsingTable (automaton : LR0Automaton) (prods : List Production)
    (follow : FollowMap) : Except String ParsingTable := do
  let initialState ←
    match lookupKernel automaton.states automaton.initialState with
    | none => throw "initial state was not found"
    | some s => pure s
  let ptab0 : ParsingTable :=
    { Action := List.replicate automaton.states.length []
      GoTo := List.replicate automaton.states.length []
      InitialState := initialState.Num }
  automaton.states.foldlM
    (fun ptab (st : KernelID × LR0State) => do
      let state := st.2
      let ptab ← state.Next.foldlM
        (fun (ptab : ParsingTable) (tr : Symbol × KernelID) => do
          match lookupKernel automaton.states tr.2 with
          | none => throw "next state was not found"
          | some nextState =>
            if isTerminal tr.1 then ptab.shift state.Num tr.1 nextState.Num
            else pure (ptab.goTo state.Num tr.1 nextState.Num))
        ptab
      state.Reducible.foldlM
        (fun (ptab : ParsingTable) prodID => do
          match findByID prods prodID with
          | none => throw "production was not found"
          | some prod =>
            match lookupSym follow prod.lhs with
            | none => throw "FOLLOW set was not found"
            | some flw => do
              let ptab ← flw.symbols.foldlM
                (fun (ptab : ParsingTable) sym => ptab.reduce state.Num sym prod.num)
                ptab
              if flw.eof then ptab.reduce state.Num symbolEOF prod.num
              else pure ptab)
        ptab)
    ptab0

/-- The grammar-analysis pipeline as driven by `GenTable`: FIRST, FOLLOW,
the LR(0) automaton, then the SLR table.  The production list stands for
the iteration order of the production-set map shared by the phases. -/
def pipeline (prods : List Production) (startSym : Symbol) (fuel : Nat) :
    Except String ParsingTable := do
  let Fopt ← genFirst prods fuel
  match Fopt with
  | none => throw "genFirst ran out of fuel"
  | some F => do
    let flw ← genFollow prods F fuel
    let automaton ← genLR0Automaton prods startSym fuel
    genSLRParsingTable automaton prods flw

/-! ## Context-free derivation over a production list -/

/-- One derivation step: some occurrence of the LHS of a listed production
is replaced by its RHS. -/
def DeriveStep (prods : List Production) (α β : List Symbol) : Prop :=
  ∃ u p v, p ∈ prods ∧ α = u ++ p.lhs :: v ∧ β = u ++ p.rhs ++ v

/-- `Derives prods α β`: β is derivable from α. -/
def Derives (prods : List Production) : List Symbol → List Symbol → Prop :=
  Relation.ReflTransGen (DeriveStep prods)

/-! ## Byte-level kernel identities (for the kernel-fusion claim)

Here item identities are kept as byte lists (the 32 SHA-256 bytes), with
the exact sort key of the source: the first four bytes read as a
little-endian integer. -/

structure BKItem where
  id : List Nat
  kernel : Bool
deriving DecidableEq, Repr

/-- `LR0ItemID.num` from unnamed/part_006: the first four bytes of the
identity, little-endian. -/
def idNum (id : List Nat) : Nat :=
  id.getD 0 0 + id.getD 1 0 * 256 + id.getD 2 0 * 65536 + id.getD 3 0 * 16777216

def insertBItem (m : List (List Nat × BKItem)) (it : BKItem) :
    List (List Nat × BKItem) :=
  if m.any (fun p => p.1 == it.id) then
    m.map (fun p => if p.1 == it.id then (p.1, it) else p)
  else m ++ [(it.id, it)]

/-- The id-keyed dedup map of `newKernel`, keys in first-occurrence order. -/
def dedupBItems (items : List BKItem) : List BKItem :=
  (items.foldl insertBItem []).map (·.2)

structure BKernel where
  idInput : List Nat
  items : List BKItem
deriving DecidableEq, Repr

/-- `newKernel` from unnamed/part_006 at the byte level: reject an empty
list or a non-kernel item, drop duplicate identities, sort by `idNum`, and
concatenate the sorted identities; `idInput` is the byte string fed to
SHA-256, so equal `idInput`s give equal kernel identities. -/
def newBKernel (items : List BKItem) : Except String BKernel :=
  if items.isEmpty then .error "a kernel item is missing"
  else if items.any (fun it => !it.kernel) then .error "not a kernel item"
  else
    let sorted := (dedupBItems items).insertionSort (fun a b => idNum a.id ≤ idNum b.id)
    .ok { idInput := (sorted.map (·.id)).flatten, items := sorted }

/-! ## Concrete grammars used to evaluate the algorithms -/

/-- Non-terminal symbol with base 1 (no flags). -/
def nB : Symbol := 1
def nA : Symbol := 2
def nX : Symbol := 3
def nY : Symbol := 4
/-- Terminal symbols (bit 15 set). -/
def tT : Symbol := 0x8001
def tS : Symbol := 0x8002

/-- The grammar B → A, A → T, A → X T, X → Y, Y → ε, Y → S, in this map
iteration order (production numbers are irrelevant to FIRST). -/
def exProdsC1 : List Production :=
  [ { lhs := nB, rhs := [nA], num := 2 }
  , { lhs := nA, rhs := [tT], num := 3 }
  , { lhs := nA, rhs := [nX, tT], num := 4 }
  , { lhs := nX, rhs := [nY], num := 5 }
  , { lhs := nY, rhs := [], num := 6 }
  , { lhs := nY, rhs := [tS], num := 7 } ]

/-- Start symbol (bit 14 set, base 1) and the other symbols of the cyclic
grammar used against FOLLOW and the pipeline. -/
def sPrime : Symbol := 0x4001
def sS : Symbol := 2
def sa : Symbol := 3
def sb : Symbol := 4
def tX : Symbol := 0x8001

/-- The grammar sPrime → s, s → a X, a → b, b → a in one map iteration
order. -/
def prodsC2 : List Production :=
  [ { lhs := sPrime, rhs := [sS], num := 1 }
  , { lhs := sS, rhs := [sa, tX], num := 2 }
  , { lhs := sa, rhs := [sb], num := 3 }
  , { lhs := sb, rhs := [sa], num := 4 } ]

/-- The same productions in another map iteration order (the production
for b is visited before the production for a). -/
def prodsC2swapped : List Production :=
  [ { lhs := sPrime, rhs := [sS], num := 1 }
  , { lhs := sS, rhs := [sa, tX], num := 2 }
  , { lhs := sb, rhs := [sa], num := 4 }
  , { lhs := sa, rhs := [sb], num := 3 } ]

/-- The FIRST map at which `genFirst exProdsC1 32` stops. -/
def exFirstC1 : FirstMap :=
  [ (nB, { symbols := [tT], empty := false })
  , (nA, { symbols := [tT, tS], empty := false })
  , (nX, { symbols := [tS], empty := true })
  , (nY, { symbols := [tS], empty := true }) ]

/-- The FIRST map produced by one further pass over `exFirstC1` (the pass
still changes the entry of B). -/
def exFirstC1next : FirstMap :=
  [ (nB, { symbols := [tT, tS], empty := false })
  , (nA, { symbols := [tT, tS], empty := false })
  , (nX, { symbols := [tS], empty := true })
  , (nY, { symbols := [tS], empty := true }) ]

/-- The FIRST map computed by `genFirst` for the cyclic grammar (every
entry is empty and non-nullable). -/
def firstC2map : FirstMap :=
  [ (sPrime, { symbols := [], empty := false })
  , (sS, { symbols := [], empty := false })
  , (sa, { symbols := [], empty := false })
  , (sb, { symbols := [], empty := false }) ]

/-- The FOLLOW map computed by `genFollow prodsC2 firstC2map`: the entry of
b was cut off by the recursion guard. -/
def followC2map : FollowMap :=
  [ (sPrime, { symbols := [], eof := true })
  , (sS, { symbols := [], eof := true })
  , (sb, { symbols := [], eof := false })
  , (sa, { symbols := [tX], eof := false }) ]

/-- Symbol table after registering the start text a. -/
def tblA : SymbolTable :=
  { text2Sym := [("a", 0x4001)], sym2Text := [(0x4001, "a")], nsymBase := 2, tsymBase := 1 }

/-- Symbol table after additionally registering the different start text b. -/
def tblAB : SymbolTable :=
  { text2Sym := [("a", 0x4001), ("b", 0x4002)]
    sym2Text := [(0x4001, "a"), (0x4002, "b")], nsymBase := 3, tsymBase := 1 }

/-- Symbol table after registering the non-terminal text x. -/
def tblX : SymbolTable :=
  { text2Sym := [("x", 1)], sym2Text := [(1, "x")], nsymBase := 2, tsymBase := 1 }

/-- Symbol table after registering the terminal text T into a fresh table. -/
def tblT : SymbolTable :=
  { text2Sym := [("T", 0x8001)], sym2Text := [(0x8001, "T")], nsymBase := 1, tsymBase := 2 }

/-- An ACTION table whose single cell (state 0, terminal tX) already holds
a reduce action for production 2. -/
def ptabR : ParsingTable :=
  { Action := [[{ symbol := tX, actionType := .reduce, state := 0, production := 2 }]]
    GoTo := [[]], InitialState := 0 }

/-- The productions of `runAppends` with a start-flagged LHS, i.e. the ones
the production set numbers with `ProductionNumStart`. -/
def nonStartProds (ps : productionSet) : List Production :=
  ps.prods.filter (fun p => !(isStartSym p.lhs))

/-- The invariant maintained by `psAppend`: the next-number counter is 2
plus the number of retained non-start productions, the non-start
productions carry the numbers 2, 3, … in insertion order, and every
start-LHS production carries number 1. -/
def psInv (ps : productionSet) : Prop :=
  ps.num = productionNumMin + (nonStartProds ps).length ∧
  (nonStartProds ps).map (·.num) =
    List.range' productionNumMin (nonStartProds ps).length ∧
  ∀ p ∈ ps.prods, isStartSym p.lhs = true → p.num = ProductionNumStart

/-- Kernel items with byte-list identities used to exercise kernel fusion. -/
def bit1 : BKItem := { id := [1, 0, 0, 0], kernel := true }
def bit2 : BKItem := { id := [2, 0, 0, 0], kernel := true }

/-! ## Helper lemmas -/

theorem foldl_invariant {α β : Type} {P : α → Prop} (f : α → β → α)
    (h : ∀ a b, P a → P (f a b)) : ∀ (l : List β) (a : α), P a → P (l.foldl f a) := by
  intro l
  induction l with
  | nil => intro a ha; simpa using ha
  | cons b rest ih =>
    intro a ha
    simpa using ih (f a b) (h a b ha)

theorem symMask_land_low (k s b : Nat) (hk : k = 0 ∨ k = 32768)
    (hs : s = 0 ∨ s = 16384) (hb : b < 16384) : (k ||| s ||| b) &&& 16383 = b := by
  apply Nat.eq_of_testBit_eq
  intro i
  rw [Nat.testBit_land, Nat.testBit_lor, Nat.testBit_lor]
  by_cases hi : i < 14
  · have hkb : k.testBit i = false := by
      rcases hk with h | h <;> subst h
      · exact Nat.zero_testBit i
      · have : ((2 : Nat) ^ 15).testBit i = false := Nat.testBit_two_pow_of_ne (by omega)
        simpa using this
    have hsb : s.testBit i = false := by
      rcases hs with h | h <;> subst h
      · exact Nat.zero_testBit i
      · have : ((2 : Nat) ^ 14).testBit i = false := Nat.testBit_two_pow_of_ne (by omega)
        simpa using this
    have hmask : (16383 : Nat).testBit i = true := by
      have h14 := Nat.testBit_two_pow_sub_one 14 i
      rw [show (16383 : Nat) = 2 ^ 14 - 1 by norm_num]
      simp [h14, hi]
    simp [hkb, hsb, hmask]
  · have hbi : b.testBit i = false := by
      refine Nat.testBit_lt_two_pow (lt_of_lt_of_le hb ?_)
      calc (16384 : Nat) = 2 ^ 14 := by norm_num
        _ ≤ 2 ^ i := Nat.pow_le_pow_right (by norm_num) (by omega)
    have hmask : (16383 : Nat).testBit i = false := by
      have h14 := Nat.testBit_two_pow_sub_one 14 i
      rw [show (16383 : Nat) = 2 ^ 14 - 1 by norm_num]
      simp [h14, hi]
    simp [hbi, hmask]

theorem symMask_land_bit15 (k s b : Nat) (hk : k = 0 ∨ k = 32768)
    (hs : s = 0 ∨ s = 16384) (hb : b < 16384) : (k ||| s ||| b) &&& 32768 = k := by
  rw [show (32768 : Nat) = 2 ^ 15 by norm_num, Nat.and_two_pow]
  have hsb : s.testBit 15 = false := by
    rcases hs with h | h <;> subst h
    · exact Nat.zero_testBit 15
    · have : ((2 : Nat) ^ 14).testBit 15 = false := Nat.testBit_two_pow_of_ne (by omega)
      simpa using this
  have hbb : b.testBit 15 = false := by
    refine Nat.testBit_lt_two_pow (lt_of_lt_of_le hb ?_)
    norm_num
  rw [Nat.testBit_lor, Nat.testBit_lor, hsb, hbb]
  rcases hk with h | h <;> subst h
  · simp
  · have : ((2 : Nat) ^ 15).testBit 15 = true := by
      rw [Nat.testBit_two_pow]; simp
    rw [show (32768 : Nat) = 2 ^ 15 by norm_num, this]
    simp

theorem symMask_land_bit14 (k s b : Nat) (hk : k = 0 ∨ k = 32768)
    (hs : s = 0 ∨ s = 16384) (hb : b < 16384) : (k ||| s ||| b) &&& 16384 = s := by
  rw [show (16384 : Nat) = 2 ^ 14 by norm_num, Nat.and_two_pow]
  have hkb : k.testBit 14 = false := by
    rcases hk with h | h <;> subst h
    · exact Nat.zero_testBit 14
    · have : ((2 : Nat) ^ 15).testBit 14 = false := Nat.testBit_two_pow_of_ne (by omega)
      simpa using this
  have hbb : b.testBit 14 = false := by
    refine Nat.testBit_lt_two_pow ?_
    calc b < 16384 := hb
      _ = 2 ^ 14 := by norm_num
  rw [Nat.testBit_lor, Nat.testBit_lor, hkb, hbb]
  rcases hs with h | h <;> subst h
  · simp
  · have : ((2 : Nat) ^ 14).testBit 14 = true := by
      rw [Nat.testBit_two_pow]; simp
    rw [show (16384 : Nat) = 2 ^ 14 by norm_num, this]
    simp

/-! ## C10: the 0x4000 bit is shared between is-start and is-EOF -/

/-- C10: for every base in [1, 2^14 - 1], packing a symbol with `newSymbol`
and unpacking it with `describe` round-trips the kind and the base exactly;
for non-terminals it also round-trips the start flag (and never decodes as
EOF); but a terminal encoded with the start flag set decodes with the EOF
flag — `describe` reads bit 0x4000 as is-start only for non-terminals and
as is-EOF for terminals, so such a symbol decodes as EOF, never as a start
symbol. -/
theorem symbol_encoding_roundtrip (kind : symbolKind) (isStart : Bool) (base : Nat)
    (h1 : 1 ≤ base) (h2 : base ≤ 2 ^ 14 - 1) :
    ∃ s, newSymbol kind isStart base = .ok s ∧
      (describe s).kind = kind ∧
      (describe s).base = base ∧
      (kind = .nonTerminal → (describe s).isStart = isStart ∧ (describe s).isEOF = false) ∧
      (kind = .terminal → (describe s).isStart = false ∧ (describe s).isEOF = isStart) := by
  have hb : base < 16384 := by omega
  have hmax : ¬ base > symbolBaseMax := by
    have : symbolBaseMax = 16383 := rfl
    omega
  cases kind <;> cases isStart
  · -- non-terminal, not start
    have h15 : base &&& 32768 = 0 := by
      simpa using symMask_land_bit15 0 0 base (Or.inl rfl) (Or.inl rfl) hb
    have h14 : base &&& 16384 = 0 := by
      simpa using symMask_land_bit14 0 0 base (Or.inl rfl) (Or.inl rfl) hb
    have hlow : base &&& 16383 = base := by
      simpa using symMask_land_low 0 0 base (Or.inl rfl) (Or.inl rfl) hb
    refine ⟨0x0000 ||| 0x0000 ||| base, ?_, ?_, ?_, ?_, ?_⟩
    · simp [newSymbol, hmax]
    · simp [describe, h15]
    · simp [describe, h15, hlow]
    · intro _
      simp [describe, h15, h14]
    · intro h; cases h
  · -- non-terminal, start
    have h15 : (16384 ||| base) &&& 32768 = 0 := by
      simpa using symMask_land_bit15 0 16384 base (Or.inl rfl) (Or.inr rfl) hb
    have h14 : (16384 ||| base) &&& 16384 = 16384 := by
      simpa using symMask_land_bit14 0 16384 base (Or.inl rfl) (Or.inr rfl) hb
    have hlow : (16384 ||| base) &&& 16383 = base := by
      simpa using symMask_land_low 0 16384 base (Or.inl rfl) (Or.inr rfl) hb
    refine ⟨0x0000 ||| 0x4000 ||| base, ?_, ?_, ?_, ?_, ?_⟩
    · simp [newSymbol, hmax]
    · simp [describe, h15]
    · simp [describe, h15, hlow]
    · intro _
      simp [describe, h15, h14]
    · intro h; cases h
  · -- terminal, not start
    have h15 : (32768 ||| base) &&& 32768 = 32768 := by
      simpa using symMask_land_bit15 32768 0 base (Or.inr rfl) (Or.inl rfl) hb
    have h14 : (32768 ||| base) &&& 16384 = 0 := by
      simpa using symMask_land_bit14 32768 0 base (Or.inr rfl) (Or.inl rfl) hb
    have hlow : (32768 ||| base) &&& 16383 = base := by
      simpa using symMask_land_low 32768 0 base (Or.inr rfl) (Or.inl rfl) hb
    refine ⟨0x8000 ||| 0x0000 ||| base, ?_, ?_, ?_, ?_, ?_⟩
    · simp [newSymbol, hmax]
    · simp [describe, h15]
    · simp [describe, h15, hlow]
    · intro h; cases h
    · intro _
      simp [describe, h15, h14]
  · -- terminal, start: decodes as EOF
    have hc : (32768 : Nat) ||| 16384 = 49152 := by decide
    have h15 : (49152 ||| base) &&& 32768 = 32768 := by
      have h := symMask_land_bit15 32768 16384 base (Or.inr rfl) (Or.inr rfl) hb
      rwa [hc] at h
    have h14 : (49152 ||| base) &&& 16384 = 16384 := by
      have h := symMask_land_bit14 32768 16384 base (Or.inr rfl) (Or.inr rfl) hb
      rwa [hc] at h
    have hlow : (49152 ||| base) &&& 16383 = base := by
      have h := symMask_land_low 32768 16384 base (Or.inr rfl) (Or.inr rfl) hb
      rwa [hc] at h
    refine ⟨0x8000 ||| 0x4000 ||| base, ?_, ?_, ?_, ?_, ?_⟩
    · simp [newSymbol, hmax]
    · simp [describe, h15]
    · simp [describe, h15, hlow]
    · intro h; cases h
    · intro _
      simp [describe, h15, h14]

/-- C10 witness: the round-trip theorem applied to the terminal kind with
the start flag set at base 5. -/
theorem symbol_encoding_roundtrip_witness :
    ∃ s, newSymbol .terminal true 5 = .ok s ∧
      (describe s).kind = .terminal ∧
      (describe s).base = 5 ∧
      (symbolKind.terminal = .nonTerminal →
        (describe s).isStart = true ∧ (describe s).isEOF = false) ∧
      (symbolKind.terminal = .terminal →
        (describe s).isStart = false ∧ (describe s).isEOF = true) :=
  symbol_encoding_roundtrip .terminal true 5 (by norm_num) (by norm_num)

/-! ## C5: register_start behaviour -/

/-- C5 counterexample: a second `registerStartSymbol` call with a different
text does not fail and does not fall back to a plain non-terminal — it
creates a second symbol with the start flag set. -/
theorem registerStartSymbol_second_start :
    registerStartSymbol newSymbolTable "a" = .ok (0x4001, tblA) ∧
    registerStartSymbol tblA "b" = .ok (0x4002, tblAB) ∧
    isStartSym 0x4001 = true ∧ isStartSym 0x4002 = true ∧
    (0x4001 : Symbol) ≠ 0x4002 := by
  refine ⟨?_, ?_, ?_, ?_, ?_⟩ <;> decide

/-- C5 (amended): a `registerStartSymbol` call with an already-registered
text returns the existing symbol and leaves the table unchanged; a call
with an unregistered text always succeeds (while the base counter is in
range) and marks the fresh symbol as a start symbol — also when a start
symbol already exists, so a second start-flagged symbol can be created and
no DuplicateStart failure exists. -/
theorem registerStartSymbol_behaviour :
    (∀ t text sym, lookupText t.text2Sym text = some sym →
      registerStartSymbol t text = .ok (sym, t)) ∧
    (∀ t text, lookupText t.text2Sym text = none → 1 ≤ t.nsymBase →
      t.nsymBase ≤ symbolBaseMax →
      ∃ t', registerStartSymbol t text = .ok (0x4000 ||| t.nsymBase, t') ∧
        isStartSym (0x4000 ||| t.nsymBase) = true) := by
  constructor
  · intro t text sym h
    unfold registerStartSymbol
    rw [h]
  · intro t text hnone h1 hmax
    have hb : t.nsymBase < 16384 := by
      have : symbolBaseMax = 16383 := rfl
      omega
    have hns : newSymbol .nonTerminal true t.nsymBase = .ok (0x4000 ||| t.nsymBase) := by
      have hgt : ¬ t.nsymBase > symbolBaseMax := by omega
      unfold newSymbol
      rw [if_neg hgt]
      exact rfl
    refine ⟨{ t with
        nsymBase := t.nsymBase + 1
        text2Sym := t.text2Sym ++ [(text, 0x4000 ||| t.nsymBase)]
        sym2Text := t.sym2Text ++ [(0x4000 ||| t.nsymBase, text)] }, ?_, ?_⟩
    · unfold registerStartSymbol
      rw [hnone, hns]
    · have hlow : (16384 ||| t.nsymBase) &&& 16383 = t.nsymBase := by
        simpa using symMask_land_low 0 16384 t.nsymBase (Or.inl rfl) (Or.inr rfl) hb
      have h15 : (16384 ||| t.nsymBase) &&& 32768 = 0 := by
        simpa using symMask_land_bit15 0 16384 t.nsymBase (Or.inl rfl) (Or.inr rfl) hb
      have h14 : (16384 ||| t.nsymBase) &&& 16384 = 16384 := by
        simpa using symMask_land_bit14 0 16384 t.nsymBase (Or.inl rfl) (Or.inr rfl) hb
      simp [isStartSym, isNil, describe, hlow, h15, h14]
      omega

/-- C5 witness: both parts of the amended behaviour at concrete tables. -/
theorem registerStartSymbol_behaviour_witness :
    registerStartSymbol tblA "a" = .ok (0x4001, tblA) ∧
    ∃ t', registerStartSymbol newSymbolTable "c" = .ok (0x4000 ||| 1, t') ∧
      isStartSym (0x4000 ||| 1) = true :=
  ⟨registerStartSymbol_behaviour.1 tblA "a" 0x4001 (by decide),
   registerStartSymbol_behaviour.2 newSymbolTable "c" (by decide) (by decide) (by decide)⟩

/-! ## C6: no KindConflict on registration -/

/-- C6 counterexample: registering as a terminal a text that is already a
non-terminal does not fail with a KindConflict — it silently returns the
existing non-terminal symbol and leaves the table unchanged. -/
theorem registerTerminalSymbol_no_kind_conflict :
    registerNonTerminalSymbol newSymbolTable "x" = .ok (1, tblX) ∧
    registerTerminalSymbol tblX "x" = .ok (1, tblX) ∧
    isNonTerminal 1 = true ∧ isTerminal 1 = false := by
  refine ⟨?_, ?_, ?_, ?_⟩ <;> decide

/-- C6 (amended): registration is idempotent on text without any kind
check: whenever a text is already registered, `registerTerminalSymbol` and
`registerNonTerminalSymbol` both return the existing symbol unchanged,
whatever kind it has; no KindConflict error is ever produced. -/
theorem register_idempotent_any_kind :
    ∀ t text sym, lookupText t.text2Sym text = some sym →
      registerTerminalSymbol t text = .ok (sym, t) ∧
      registerNonTerminalSymbol t text = .ok (sym, t) := by
  intro t text sym h
  constructor
  · unfold registerTerminalSymbol
    rw [h]
  · unfold registerNonTerminalSymbol
    rw [h]

/-- C6 witness: the amended idempotence applied to the non-terminal x. -/
theorem register_idempotent_any_kind_witness :
    registerTerminalSymbol tblX "x" = .ok (1, tblX) ∧
    registerNonTerminalSymbol tblX "x" = .ok (1, tblX) :=
  register_idempotent_any_kind tblX "x" 1 (by decide)

/-! ## C7: terminal bases start at 1, sharing the base of EOF -/

theorem registerStartSymbol_tsymBase (t : SymbolTable) (text : String) (s : Symbol)
    (t' : SymbolTable) (h : registerStartSymbol t text = .ok (s, t')) :
    t'.tsymBase = t.tsymBase := by
  unfold registerStartSymbol at h
  cases hl : lookupText t.text2Sym text with
  | some sym =>
    rw [hl] at h
    simp only [Except.ok.injEq, Prod.mk.injEq] at h
    rw [← h.2]
  | none =>
    rw [hl] at h
    cases hn : newSymbol .nonTerminal true t.nsymBase with
    | error e => rw [hn] at h; exact absurd h (by simp)
    | ok sym =>
      rw [hn] at h
      simp only [Except.ok.injEq, Prod.mk.injEq] at h
      rw [← h.2]

theorem registerNonTerminalSymbol_tsymBase (t : SymbolTable) (text : String)
    (s : Symbol) (t' : SymbolTable)
    (h : registerNonTerminalSymbol t text = .ok (s, t')) :
    t'.tsymBase = t.tsymBase := by
  unfold registerNonTerminalSymbol at h
  cases hl : lookupText t.text2Sym text with
  | some sym =>
    rw [hl] at h
    simp only [Except.ok.injEq, Prod.mk.injEq] at h
    rw [← h.2]
  | none =>
    rw [hl] at h
    cases hn : newSymbol .nonTerminal false t.nsymBase with
    | error e => rw [hn] at h; exact absurd h (by simp)
    | ok sym =>
      rw [hn] at h
      simp only [Except.ok.injEq, Prod.mk.injEq] at h
      rw [← h.2]

theorem registerTerminalSymbol_tsymBase (t : SymbolTable) (text : String)
    (s : Symbol) (t' : SymbolTable)
    (h : registerTerminalSymbol t text = .ok (s, t')) :
    t'.tsymBase = t.tsymBase ∨ t'.tsymBase = t.tsymBase + 1 := by
  unfold registerTerminalSymbol at h
  cases hl : lookupText t.text2Sym text with
  | some sym =>
    rw [hl] at h
    simp only [Except.ok.injEq, Prod.mk.injEq] at h
    left
    rw [← h.2]
  | none =>
    rw [hl] at h
    cases hn : newSymbol .terminal false t.tsymBase with
    | error e => rw [hn] at h; exact absurd h (by simp)
    | ok sym =>
      rw [hn] at h
      simp only [Except.ok.injEq, Prod.mk.injEq] at h
      right
      rw [← h.2]

theorem tsymBase_pos (ops : List RegOp) : 1 ≤ (runRegOps ops).tsymBase := by
  have step : ∀ (t : SymbolTable) (op : RegOp),
      1 ≤ t.tsymBase → 1 ≤ (applyRegOp t op).tsymBase := by
    intro t op h
    cases op with
    | start text =>
      rcases hr : registerStartSymbol t text with e | ⟨s, t'⟩
      · simp only [applyRegOp, hr]
        exact h
      · simp only [applyRegOp, hr]
        have := registerStartSymbol_tsymBase t text s t' hr
        omega
    | nonTerm text =>
      rcases hr : registerNonTerminalSymbol t text with e | ⟨s, t'⟩
      · simp only [applyRegOp, hr]
        exact h
      · simp only [applyRegOp, hr]
        have := registerNonTerminalSymbol_tsymBase t text s t' hr
        omega
    | term text =>
      rcases hr : registerTerminalSymbol t text with e | ⟨s, t'⟩
      · simp only [applyRegOp, hr]
        exact h
      · simp only [applyRegOp, hr]
        have := registerTerminalSymbol_tsymBase t text s t' hr
        omega
  have base : 1 ≤ newSymbolTable.tsymBase := le_refl 1
  exact foldl_invariant applyRegOp step ops newSymbolTable base

/-- C7 counterexample: the very first `registerTerminalSymbol` on a fresh
table creates the terminal 0x8001 with base 1 — the same base as the EOF
symbol 0xc001 — contradicting the claim that every registered terminal has
base at least 2. -/
theorem first_terminal_shares_eof_base :
    registerTerminalSymbol newSymbolTable "T" = .ok (0x8001, tblT) ∧
    (describe 0x8001).base = 1 ∧
    (describe symbolEOF).base = 1 ∧
    isTerminal 0x8001 = true ∧
    (0x8001 : Symbol) ≠ symbolEOF ∧
    ¬ 2 ≤ (describe 0x8001).base := by
  refine ⟨?_, ?_, ?_, ?_, ?_, ?_⟩ <;> decide

/-- C7 (amended): for every sequence of registrations, a successful
`registerTerminalSymbol` of a fresh text yields a symbol whose base equals
the current terminal base counter, which is at least 1 — not at least 2:
the counter starts at 1, so the first registered terminal shares base 1
with EOF (the two remain distinct symbols, differing in the 0x4000 bit). -/
theorem terminal_base_from_one :
    ∀ (ops : List RegOp) (text : String) (sym : Symbol) (t' : SymbolTable),
      lookupText (runRegOps ops).text2Sym text = none →
      registerTerminalSymbol (runRegOps ops) text = .ok (sym, t') →
      1 ≤ (describe sym).base ∧ (describe sym).base = (runRegOps ops).tsymBase := by
  intro ops text sym t' hnone hok
  unfold registerTerminalSymbol at hok
  rw [hnone] at hok
  cases hns : newSymbol .terminal false (runRegOps ops).tsymBase with
  | error e => rw [hns] at hok; exact absurd hok (by simp)
  | ok s =>
    rw [hns] at hok
    have hsym : s = sym := by
      have := congrArg (fun r => match r with
        | Except.ok (x, _) => x
        | Except.error _ => symbolNil) hok
      simpa using this
    unfold newSymbol at hns
    by_cases hgt : (runRegOps ops).tsymBase > symbolBaseMax
    · rw [if_pos hgt] at hns; exact absurd hns (by simp)
    · rw [if_neg hgt] at hns
      have hb : (runRegOps ops).tsymBase < 16384 := by
        have : symbolBaseMax = 16383 := rfl
        omega
      have hval : s = 32768 ||| (runRegOps ops).tsymBase := by
        have := hns
        simp only [Except.ok.injEq] at this
        rw [← this]
        rfl
      have hlow : (32768 ||| (runRegOps ops).tsymBase) &&& 16383 =
          (runRegOps ops).tsymBase := by
        simpa using symMask_land_low 32768 0 (runRegOps ops).tsymBase
          (Or.inr rfl) (Or.inl rfl) hb
      have h15 : (32768 ||| (runRegOps ops).tsymBase) &&& 32768 = 32768 := by
        simpa using symMask_land_bit15 32768 0 (runRegOps ops).tsymBase
          (Or.inr rfl) (Or.inl rfl) hb
      have hpos := tsymBase_pos ops
      constructor
      · rw [← hsym, hval]
        simp [describe, h15, hlow]
        omega
      · rw [← hsym, hval]
        simp [describe, h15, hlow]

/-- C7 witness: the amended statement applied to the empty registration
sequence and the text T. -/
theorem terminal_base_from_one_witness :
    1 ≤ (describe 0x8001).base ∧ (describe 0x8001).base = (runRegOps []).tsymBase :=
  terminal_base_from_one [] "T" 0x8001 tblT (by decide) (by decide)

/-! ## C8: production numbering -/

theorem psInv_append (ps : productionSet) (lhs : Symbol) (rhs : List Symbol)
    (h : psInv ps) : psInv (psAppend ps lhs rhs).1 := by
  obtain ⟨h1, h2, h3⟩ := h
  unfold psAppend
  by_cases hc : psContains ps lhs rhs = true
  · rw [if_pos hc]
    exact ⟨h1, h2, h3⟩
  · rw [if_neg hc]
    by_cases hs : isStartSym lhs = true
    · rw [if_pos hs]
      refine ⟨?_, ?_, ?_⟩
      · simpa [nonStartProds, List.filter_append, hs] using h1
      · simpa [nonStartProds, List.filter_append, hs] using h2
      · intro p hp hstart
        simp only [List.mem_append, List.mem_singleton] at hp
        rcases hp with hp | hp
        · exact h3 p hp hstart
        · rw [hp]
    · rw [if_neg hs]
      have hfilter : nonStartProds
          { prods := ps.prods ++ [{ lhs := lhs, rhs := rhs, num := ps.num }]
            num := ps.num + 1 } =
          nonStartProds ps ++ [{ lhs := lhs, rhs := rhs, num := ps.num }] := by
        simp [nonStartProds, List.filter_append, hs]
      refine ⟨?_, ?_, ?_⟩
      · rw [hfilter]
        simp only [List.length_append, List.length_singleton]
        omega
      · rw [hfilter]
        simp only [List.map_append, List.map_cons, List.map_nil,
          List.length_append, List.length_singleton]
        rw [h2, h1]
        rw [List.range'_concat]
        simp
      · intro p hp hstart
        simp only [List.mem_append, List.mem_singleton] at hp
        rcases hp with hp | hp
        · exact h3 p hp hstart
        · rw [hp] at hstart
          simp only at hstart
          exact absurd hstart (by simpa using hs)

theorem psInv_runAppends (l : List (Symbol × List Symbol)) : psInv (runAppends l) := by
  refine foldl_invariant _ (fun ps p hp => psInv_append ps p.1 p.2 hp) l
    newProductionSet ?_
  refine ⟨rfl, rfl, ?_⟩
  intro p hp
  exact absurd hp (List.not_mem_nil p)

/-- C8 counterexample: appending two distinct productions that both have
the start-flagged LHS gives both of them production number 1 — two distinct
retained productions share a number. -/
theorem two_start_productions_share_number :
    runAppends [(sPrime, [tT]), (sPrime, [tS])] =
      { prods := [ { lhs := sPrime, rhs := [tT], num := 1 }
                 , { lhs := sPrime, rhs := [tS], num := 1 } ]
        num := 2 } ∧
    ({ lhs := sPrime, rhs := [tT], num := 1 } : Production) ≠
      { lhs := sPrime, rhs := [tS], num := 1 } ∧
    isStartSym sPrime = true := by
  refine ⟨?_, ?_, ?_⟩ <;> decide

/-- C8 (amended): for every sequence of append operations, every retained
production with a start-flagged LHS carries number 1 (so two distinct
start-LHS productions share it), the retained non-start productions carry
exactly the sequential numbers 2, 3, … in insertion order — hence pairwise
distinct and at least 2 — and appending a duplicate (same LHS and RHS)
consumes no number and leaves the set unchanged. -/
theorem production_numbering :
    ∀ l : List (Symbol × List Symbol),
      (∀ p ∈ (runAppends l).prods, isStartSym p.lhs = true →
        p.num = ProductionNumStart) ∧
      ((nonStartProds (runAppends l)).map (·.num) =
        List.range' productionNumMin (nonStartProds (runAppends l)).length) ∧
      ((nonStartProds (runAppends l)).map (·.num)).Nodup ∧
      (∀ p ∈ nonStartProds (runAppends l), productionNumMin ≤ p.num) ∧
      (∀ lhs rhs, psContains (runAppends l) lhs rhs = true →
        psAppend (runAppends l) lhs rhs = (runAppends l, false)) := by
  intro l
  obtain ⟨h1, h2, h3⟩ := psInv_runAppends l
  refine ⟨h3, h2, ?_, ?_, ?_⟩
  · rw [h2]
    exact List.nodup_range' _ _
  · intro p hp
    have hmem : p.num ∈ (nonStartProds (runAppends l)).map (·.num) :=
      List.mem_map_of_mem (·.num) hp
    rw [h2] at hmem
    exact (List.mem_range'_1.mp hmem).1
  · intro lhs rhs hcont
    unfold psAppend
    rw [if_pos hcont]

/-- C8 witness: the amended numbering at a concrete append sequence with a
start production, a normal production and a duplicate. -/
theorem production_numbering_witness :
    ({ lhs := sPrime, rhs := [tT], num := 1 } : Production).num = ProductionNumStart ∧
    psAppend (runAppends [(sPrime, [tT]), (sa, [tT]), (sa, [tT])]) sa [tT] =
      (runAppends [(sPrime, [tT]), (sa, [tT]), (sa, [tT])], false) := by
  have h := production_numbering [(sPrime, [tT]), (sa, [tT]), (sa, [tT])]
  exact ⟨h.1 { lhs := sPrime, rhs := [tT], num := 1 } (by decide) (by decide),
    h.2.2.2.2 sa [tT] (by decide)⟩

/-! ## C4: the reduce write is not idempotent -/

/-- C4 counterexample: writing a reduce action for production 2 into an
ACTION cell that already holds a reduce action for the very same
production 2 is reported as a reduce/reduce conflict, not treated as an
idempotent no-op. -/
theorem reduce_same_production_conflicts :
    ParsingTable.reduce ptabR 0 tX 2 = .error "reduce/reduce conflict" ∧
    (ptabR.Action.getD 0 []).find? (fun e => e.symbol == tX) =
      some { symbol := tX, actionType := .reduce, state := 0, production := 2 } := by
  constructor <;> decide

/-- C4 (amended): a reduce write into an ACTION cell whose first entry for
the written terminal is a reduce action reports a reduce/reduce conflict
regardless of whether the existing production equals the written one; an
existing shift entry reports a shift/reduce conflict. -/
theorem reduce_write_behaviour :
    (∀ (t : ParsingTable) (state : Nat) (sym : Symbol) (prod : Nat) (e : ActionEntry),
      (t.Action.getD state []).find? (fun x => x.symbol == sym) = some e →
      e.actionType = .reduce →
      ParsingTable.reduce t state sym prod = .error "reduce/reduce conflict") ∧
    (∀ (t : ParsingTable) (state : Nat) (sym : Symbol) (prod : Nat) (e : ActionEntry),
      (t.Action.getD state []).find? (fun x => x.symbol == sym) = some e →
      e.actionType = .shift →
      ParsingTable.reduce t state sym prod = .error "shift/reduce conflict") := by
  constructor
  · intro t state sym prod e hf ha
    rw [List.getD_eq_getElem?_getD] at hf
    simp [ParsingTable.reduce, hf, ha]
  · intro t state sym prod e hf ha
    rw [List.getD_eq_getElem?_getD] at hf
    simp [ParsingTable.reduce, hf, ha]

/-- C4 witness: the amended behaviour at the concrete table whose cell
already holds reduce 2, written with a different production number. -/
theorem reduce_write_behaviour_witness :
    ParsingTable.reduce ptabR 0 tX 7 = .error "reduce/reduce conflict" :=
  reduce_write_behaviour.1 ptabR 0 tX 7
    { symbol := tX, actionType := .reduce, state := 0, production := 2 }
    (by decide) (by decide)

/-! ## C1: genFirst can stop early with an unsound FIRST map

In `genProdFirstEntry` the changed flag of `mergeExceptEmpty` is discarded
whenever the merged non-terminal is nullable and the walk continues, so a
pass can grow an entry while reporting no change; `genFirst` then stops at
a map that is not a fixed point.  On the grammar B → A, A → T, A → X T,
X → Y, Y → ε, Y → S (in this iteration order) the final pass moves S from
FIRST(X) into FIRST(A) silently, and FIRST(B) never receives S even though
B derives the sentential form S T. -/

/-- C1: `genFirst` terminates on `exProdsC1` with FIRST(B) = {T}, although
B ⇒* S T — so the terminal S that can begin a derivation of B is missing
from the computed FIRST(B) — and one further pass over the returned map
still changes it, refuting both the soundness claim and the claim that the
outer loop only stops once a full pass makes no change. -/
theorem genFirst_premature_stop_unsound :
    Derives exProdsC1 [nB] [tS, tT] ∧
    genFirst exProdsC1 32 = .ok (some exFirstC1) ∧
    lookupSym exFirstC1 nB = some { symbols := [tT], empty := false } ∧
    tS ∉ ([tT] : List Symbol) ∧
    firstPass exProdsC1 exFirstC1 false = .ok (exFirstC1next, true) := by
  refine ⟨?_, by decide, by decide, by decide, by decide⟩
  have s1 : DeriveStep exProdsC1 [nB] [nA] :=
    ⟨[], { lhs := nB, rhs := [nA], num := 2 }, [], by decide, rfl, rfl⟩
  have s2 : DeriveStep exProdsC1 [nA] [nX, tT] :=
    ⟨[], { lhs := nA, rhs := [nX, tT], num := 4 }, [], by decide, rfl, rfl⟩
  have s3 : DeriveStep exProdsC1 [nX, tT] [nY, tT] :=
    ⟨[], { lhs := nX, rhs := [nY], num := 5 }, [tT], by decide, rfl, rfl⟩
  have s4 : DeriveStep exProdsC1 [nY, tT] [tS, tT] :=
    ⟨[], { lhs := nY, rhs := [tS], num := 7 }, [tT], by decide, rfl, rfl⟩
  exact Relation.ReflTransGen.head s1 (Relation.ReflTransGen.head s2
    (Relation.ReflTransGen.head s3 (Relation.ReflTransGen.head s4
      Relation.ReflTransGen.refl)))

/-! ## C2: the FOLLOW recursion guard under-approximates on cycles -/

/-- C2: on the mutually recursive grammar sPrime → s, s → a X, a → b,
b → a processed in this order, `genFollow` returns FOLLOW(b) = ∅ although
the production a → b ends in b, which by the claimed flow constraint
requires FOLLOW(a) ⊆ FOLLOW(b) — and X ∈ FOLLOW(a) while X ∉ FOLLOW(b).
The stack guard of `genFollowEntry` answered the cyclic lookup of
FOLLOW(a) during the computation of FOLLOW(b) with a fresh empty entry and
the empty result was cached. -/
theorem genFollow_recursion_guard_underapprox :
    ({ lhs := sa, rhs := [sb], num := 3 } : Production) ∈ prodsC2 ∧
    genFirst prodsC2 32 = .ok (some firstC2map) ∧
    genFollow prodsC2 firstC2map 1000 = .ok followC2map ∧
    lookupSym followC2map sa = some { symbols := [tX], eof := false } ∧
    lookupSym followC2map sb = some { symbols := [], eof := false } ∧
    tX ∈ ([tX] : List Symbol) ∧ tX ∉ ([] : List Symbol) := by
  refine ⟨by decide, by decide, by decide, by decide, by decide, by decide, by decide⟩

/-! ## C9: the pipeline result depends on the map iteration order -/

/-- C9: the two lists `prodsC2` and `prodsC2swapped` hold the same
productions and differ only in iteration order (a permutation), yet the
full pipeline succeeds and emits a table for one order and aborts with a
shift/reduce conflict for the other — the FOLLOW under-approximation of
the recursion guard depends on the order in which the production map is
iterated, so the emitted output is not a function of the input tree alone. -/
theorem pipeline_order_dependent :
    List.Perm prodsC2swapped prodsC2 ∧
    (pipeline prodsC2 sPrime 1000).isOk = true ∧
    (pipeline prodsC2swapped sPrime 1000).isOk = false := by
  refine ⟨?_, by decide, by decide⟩
  exact List.Perm.cons _ (List.Perm.cons _ (List.Perm.swap _ _ _))

/-! ## C3: kernel fusion -/

theorem insertBItem_keys_present (m : List (List Nat × BKItem)) (it : BKItem)
    (h : m.any (fun p => p.1 == it.id) = true) :
    (insertBItem m it).map (·.1) = m.map (·.1) := by
  unfold insertBItem
  rw [if_pos h, List.map_map]
  apply List.map_congr_left
  intro p _
  simp only [Function.comp_apply]
  split <;> rfl

theorem insertBItem_keys_absent (m : List (List Nat × BKItem)) (it : BKItem)
    (h : m.any (fun p => p.1 == it.id) = false) :
    (insertBItem m it).map (·.1) = m.map (·.1) ++ [it.id] := by
  unfold insertBItem
  rw [if_neg (by rw [h]; exact Bool.false_ne_true)]
  simp

theorem bkKeys_nodup (items : List BKItem) :
    ∀ m0 : List (List Nat × BKItem), (m0.map (·.1)).Nodup →
      ((items.foldl insertBItem m0).map (·.1)).Nodup := by
  induction items with
  | nil => intro m0 h; simpa using h
  | cons it rest ih =>
    intro m0 h
    rw [List.foldl_cons]
    apply ih
    cases hany : m0.any (fun p => p.1 == it.id) with
    | true => rw [insertBItem_keys_present m0 it hany]; exact h
    | false =>
      rw [insertBItem_keys_absent m0 it hany]
      rw [List.nodup_append]
      refine ⟨h, List.nodup_singleton _, ?_⟩
      intro a ha hb
      simp only [List.mem_singleton] at hb
      subst hb
      rw [List.any_eq_false] at hany
      obtain ⟨p, hp, hpe⟩ := List.mem_map.mp ha
      exact hany p hp (by simp [hpe])

theorem bkVals_id (items : List BKItem) :
    ∀ m0 : List (List Nat × BKItem), (∀ p ∈ m0, p.2.id = p.1) →
      ∀ p ∈ items.foldl insertBItem m0, p.2.id = p.1 := by
  induction items with
  | nil => intro m0 h; exact h
  | cons it rest ih =>
    intro m0 h
    rw [List.foldl_cons]
    apply ih
    intro p hp
    unfold insertBItem at hp
    by_cases hany : m0.any (fun q => q.1 == it.id) = true
    · rw [if_pos hany] at hp
      obtain ⟨q, hq, hqe⟩ := List.mem_map.mp hp
      by_cases hqi : (q.1 == it.id) = true
      · rw [if_pos hqi] at hqe
        rw [← hqe]
        simpa using (by simpa using hqi : q.1 = it.id).symm
      · rw [if_neg hqi] at hqe
        rw [← hqe]
        exact h q hq
    · rw [if_neg hany] at hp
      rcases List.mem_append.mp hp with hp | hp
      · exact h p hp
      · simp only [List.mem_singleton] at hp
        subst hp
        rfl

theorem bkKeys_toFinset (items : List BKItem) :
    ∀ m0 : List (List Nat × BKItem),
      ((items.foldl insertBItem m0).map (·.1)).toFinset =
        (m0.map (·.1)).toFinset ∪ (items.map (·.id)).toFinset := by
  induction items with
  | nil => intro m0; simp
  | cons it rest ih =>
    intro m0
    rw [List.foldl_cons, ih]
    have hstep : ((insertBItem m0 it).map (·.1)).toFinset =
        (m0.map (·.1)).toFinset ∪ {it.id} := by
      cases hany : m0.any (fun p => p.1 == it.id) with
      | true =>
        rw [insertBItem_keys_present m0 it hany]
        have hmem : it.id ∈ (m0.map (·.1)).toFinset := by
          rw [List.any_eq_true] at hany
          obtain ⟨p, hp, hpe⟩ := hany
          simp only [List.mem_toFinset, List.mem_map]
          exact ⟨p, hp, by simpa using hpe⟩
        exact (Finset.union_eq_left.mpr (Finset.singleton_subset_iff.mpr hmem)).symm
      | false =>
        rw [insertBItem_keys_absent m0 it hany]
        simp
    rw [hstep]
    ext a
    simp only [Finset.mem_union, List.toFinset_cons, Finset.mem_insert,
      List.mem_toFinset, Finset.mem_singleton, List.map_cons, List.mem_cons]
    tauto

theorem dedup_ids (L : List BKItem) :
    (dedupBItems L).map (·.id) = (L.foldl insertBItem []).map (·.1) := by
  unfold dedupBItems
  rw [List.map_map]
  apply List.map_congr_left
  intro p hp
  exact bkVals_id L [] (by simp) p hp

theorem sortedIds_eq (l1 l2 : List BKItem)
    (hn1 : (l1.map (·.id)).Nodup) (hn2 : (l2.map (·.id)).Nodup)
    (hset : (l1.map (·.id)).toFinset = (l2.map (·.id)).toFinset)
    (hinj : ∀ x ∈ (l1.map (·.id)).toFinset, ∀ y ∈ (l1.map (·.id)).toFinset,
      idNum x = idNum y → x = y) :
    (l1.insertionSort (fun a b => idNum a.id ≤ idNum b.id)).map (·.id) =
      (l2.insertionSort (fun a b => idNum a.id ≤ idNum b.id)).map (·.id) := by
  haveI : IsTotal BKItem (fun a b => idNum a.id ≤ idNum b.id) :=
    ⟨fun a b => Nat.le_total _ _⟩
  haveI : IsTrans BKItem (fun a b => idNum a.id ≤ idNum b.id) :=
    ⟨fun _ _ _ hab hbc => Nat.le_trans hab hbc⟩
  have hp1 : ((l1.insertionSort (fun a b => idNum a.id ≤ idNum b.id)).map (·.id)).Perm
      (l1.map (·.id)) :=
    (List.perm_insertionSort _ l1).map (·.id)
  have hp2 : ((l2.insertionSort (fun a b => idNum a.id ≤ idNum b.id)).map (·.id)).Perm
      (l2.map (·.id)) :=
    (List.perm_insertionSort _ l2).map (·.id)
  have hle1 : ((l1.insertionSort (fun a b => idNum a.id ≤ idNum b.id)).map
      (·.id)).Pairwise (fun x y => idNum x ≤ idNum y) :=
    List.Pairwise.map (·.id) (fun _ _ h => h) (List.sorted_insertionSort _ l1)
  have hle2 : ((l2.insertionSort (fun a b => idNum a.id ≤ idNum b.id)).map
      (·.id)).Pairwise (fun x y => idNum x ≤ idNum y) :=
    List.Pairwise.map (·.id) (fun _ _ h => h) (List.sorted_insertionSort _ l2)
  have hnd1 : ((l1.insertionSort (fun a b => idNum a.id ≤ idNum b.id)).map
      (·.id)).Nodup := hp1.symm.nodup hn1
  have hnd2 : ((l2.insertionSort (fun a b => idNum a.id ≤ idNum b.id)).map
      (·.id)).Nodup := hp2.symm.nodup hn2
  have hinj2 : ∀ x ∈ (l2.map (·.id)).toFinset, ∀ y ∈ (l2.map (·.id)).toFinset,
      idNum x = idNum y → x = y := by
    rw [← hset]; exact hinj
  have hlt1 : ((l1.insertionSort (fun a b => idNum a.id ≤ idNum b.id)).map
      (·.id)).Pairwise (fun x y => idNum x < idNum y) := by
    refine (hle1.and hnd1).imp_of_mem ?_
    intro a b ha hb hab
    refine Nat.lt_of_le_of_ne hab.1 (fun he => hab.2 ?_)
    exact hinj a (List.mem_toFinset.mpr (hp1.mem_iff.mp ha))
      b (List.mem_toFinset.mpr (hp1.mem_iff.mp hb)) he
  have hlt2 : ((l2.insertionSort (fun a b => idNum a.id ≤ idNum b.id)).map
      (·.id)).Pairwise (fun x y => idNum x < idNum y) := by
    refine (hle2.and hnd2).imp_of_mem ?_
    intro a b ha hb hab
    refine Nat.lt_of_le_of_ne hab.1 (fun he => hab.2 ?_)
    exact hinj2 a (List.mem_toFinset.mpr (hp2.mem_iff.mp ha))
      b (List.mem_toFinset.mpr (hp2.mem_iff.mp hb)) he
  have hperm : ((l1.insertionSort (fun a b => idNum a.id ≤ idNum b.id)).map
      (·.id)).Perm
      ((l2.insertionSort (fun a b => idNum a.id ≤ idNum b.id)).map (·.id)) :=
    hp1.trans ((List.perm_of_nodup_nodup_toFinset_eq hn1 hn2 hset).trans hp2.symm)
  haveI : IsAntisymm (List Nat) (fun x y => idNum x < idNum y) :=
    ⟨fun a b hab hba => absurd (Nat.lt_trans hab hba) (Nat.lt_irrefl _)⟩
  exact List.eq_of_perm_of_sorted hperm hlt1 hlt2

/-- C3: kernel fusion.  For any two non-empty lists of kernel items with
the same set of item identities, `newKernel` (modelled at the byte level by
`newBKernel`) succeeds on both and feeds the identical byte string into the
kernel-identity hash, so both lists produce the same kernel identity.  The
hypotheses require every item to be a kernel item and — the collision
freeness that SHA-256 supplies in practice — that distinct identities in
play have distinct four-byte sort keys (`idNum`); without it the unstable
sort of the source is not determined by the item set. -/
theorem newKernel_fusion (L1 L2 : List BKItem) (hne1 : L1 ≠ []) (hne2 : L2 ≠ [])
    (hk1 : ∀ it ∈ L1, it.kernel = true) (hk2 : ∀ it ∈ L2, it.kernel = true)
    (hset : (L1.map (·.id)).toFinset = (L2.map (·.id)).toFinset)
    (hinj : ∀ x ∈ (L1.map (·.id)).toFinset, ∀ y ∈ (L1.map (·.id)).toFinset,
      idNum x = idNum y → x = y) :
    ∃ k1 k2, newBKernel L1 = .ok k1 ∧ newBKernel L2 = .ok k2 ∧
      k1.idInput = k2.idInput := by
  have hno1 : ¬ L1.isEmpty = true := by
    rw [List.isEmpty_iff]
    exact hne1
  have hno2 : ¬ L2.isEmpty = true := by
    rw [List.isEmpty_iff]
    exact hne2
  have hanyk1 : ¬ L1.any (fun it => !it.kernel) = true := by
    intro hcon
    rw [List.any_eq_true] at hcon
    obtain ⟨it, hit, hb⟩ := hcon
    rw [hk1 it hit] at hb
    simp at hb
  have hanyk2 : ¬ L2.any (fun it => !it.kernel) = true := by
    intro hcon
    rw [List.any_eq_true] at hcon
    obtain ⟨it, hit, hb⟩ := hcon
    rw [hk2 it hit] at hb
    simp at hb
  have e1 : newBKernel L1 = .ok
      { idInput := (((dedupBItems L1).insertionSort
          (fun a b => idNum a.id ≤ idNum b.id)).map (·.id)).flatten
        items := (dedupBItems L1).insertionSort
          (fun a b => idNum a.id ≤ idNum b.id) } := by
    unfold newBKernel
    rw [if_neg hno1, if_neg hanyk1]
  have e2 : newBKernel L2 = .ok
      { idInput := (((dedupBItems L2).insertionSort
          (fun a b => idNum a.id ≤ idNum b.id)).map (·.id)).flatten
        items := (dedupBItems L2).insertionSort
          (fun a b => idNum a.id ≤ idNum b.id) } := by
    unfold newBKernel
    rw [if_neg hno2, if_neg hanyk2]
  have hd1 : ((dedupBItems L1).map (·.id)).Nodup := by
    rw [dedup_ids]
    exact bkKeys_nodup L1 [] (by simp)
  have hd2 : ((dedupBItems L2).map (·.id)).Nodup := by
    rw [dedup_ids]
    exact bkKeys_nodup L2 [] (by simp)
  have hs1 : ((dedupBItems L1).map (·.id)).toFinset = (L1.map (·.id)).toFinset := by
    rw [dedup_ids, bkKeys_toFinset L1 []]
    simp
  have hs2 : ((dedupBItems L2).map (·.id)).toFinset = (L2.map (·.id)).toFinset := by
    rw [dedup_ids, bkKeys_toFinset L2 []]
    simp
  have hset' : ((dedupBItems L1).map (·.id)).toFinset =
      ((dedupBItems L2).map (·.id)).toFinset := by
    rw [hs1, hs2]
    exact hset
  have hinj' : ∀ x ∈ ((dedupBItems L1).map (·.id)).toFinset,
      ∀ y ∈ ((dedupBItems L1).map (·.id)).toFinset, idNum x = idNum y → x = y := by
    rw [hs1]
    exact hinj
  have hG := sortedIds_eq (dedupBItems L1) (dedupBItems L2) hd1 hd2 hset' hinj'
  refine ⟨_, _, e1, e2, ?_⟩
  exact congrArg List.flatten hG

/-- C3 witness: kernel fusion applied to two concrete item lists holding
the same two kernel items in different order, one with a duplicate. -/
theorem newKernel_fusion_witness :
    ∃ k1 k2, newBKernel [bit1, bit2, bit1] = .ok k1 ∧
      newBKernel [bit2, bit1] = .ok k2 ∧ k1.idInput = k2.idInput :=
  newKernel_fusion [bit1, bit2, bit1] [bit2, bit1] (by decide) (by decide)
    (by decide) (by decide) (by decide) (by decide)

end Gram
